import Mathlib

/-!
# Verification of the market_scanner indicator, crossover and dispatcher core

Shallow embedding of the algorithmic core of the `market_scanner` repository:

* `market_scanner.py`: `compute_rsi`, `compute_macd`, `compute_atr`,
  `get_trend`, `scan_symbol`, `run_scanner`'s symbol-universe construction;
* `sma_strategy.py`: `detect_crossover`;
* `telegram_users.py`: `_is_valid_hhmm`, `TelegramUser.effective_times`;
* `scheduler.py`: `_run_user_reports`.

Prices are modelled as rationals (`ℚ`); pandas `NaN` propagation is modelled
with `Option ℚ` (a `none` value is a `NaN` cell).  I/O collaborators (bar
fetching, report generation and delivery) are abstracted as inputs, following
the spec's external-interface boundary.
-/

namespace MarketScanner

/-- One OHLCV bar, as produced by `bars_to_dataframe` (columns
`open/high/low/close/volume`). -/
structure Bar where
  «open» : ℚ
  high : ℚ
  low : ℚ
  close : ℚ
  volume : ℤ
deriving Repr, DecidableEq

/-- `pandas.Series.diff()`: first element is `NaN` (`none`), the rest are
successive differences. -/
def diffs : List ℚ → List (Option ℚ)
  | [] => []
  | c :: rest => none :: List.zipWith (fun b a => some (b - a)) rest (c :: rest)

/-- `delta.where(delta > 0, 0.0)`: a `NaN` comparison is false, so the `NaN`
head becomes `0.0`; positive deltas are kept, others replaced by `0.0`. -/
def gains (closes : List ℚ) : List ℚ :=
  (diffs closes).map fun d =>
    match d with
    | some v => if 0 < v then v else 0
    | none => 0

/-- `(-delta).where(delta < 0, 0.0)`: negative deltas contribute their
absolute value, others (and the `NaN` head) become `0.0`. -/
def losses (closes : List ℚ) : List ℚ :=
  (diffs closes).map fun d =>
    match d with
    | some v => if v < 0 then -v else 0
    | none => 0

/-- The last entry of `series.rolling(window=period).mean()`: defined (mean of
the trailing `period` values) exactly when the series has at least `period`
entries, `NaN` (`none`) otherwise. -/
def rollingMeanLast (period : ℕ) (l : List ℚ) : Option ℚ :=
  if l.length < period then none
  else some ((l.drop (l.length - period)).sum / (period : ℚ))

/-- `avg_gain = gain.rolling(window=period).mean()`, final entry. -/
def avg_gain (closes : List ℚ) (period : ℕ) : Option ℚ :=
  rollingMeanLast period (gains closes)

/-- `avg_loss = loss.rolling(window=period).mean()`, final entry. -/
def avg_loss (closes : List ℚ) (period : ℕ) : Option ℚ :=
  rollingMeanLast period (losses closes)

/-- `compute_rsi` from `market_scanner.py`:
`rs = avg_gain / avg_loss.replace(0, np.nan)` (a zero average loss is turned
into `NaN`, and `NaN` propagates through the division), then
`rsi = 100 - 100 / (1 + rs)`, and finally
`float(rsi.iloc[-1]) if not pd.isna(rsi.iloc[-1]) else 50.0`. -/
def compute_rsi (closes : List ℚ) (period : ℕ) : ℚ :=
  let rs : Option ℚ :=
    match avg_gain closes period, avg_loss closes period with
    | some g, some l => if l = 0 then none else some (g / l)
    | _, _ => none
  match rs with
  | some r => 100 - 100 / (1 + r)
  | none => 50

end MarketScanner

namespace MarketScanner

theorem diffs_length (closes : List ℚ) : (diffs closes).length = closes.length := by
  cases closes with
  | nil => rfl
  | cons c rest => simp [diffs]

theorem gains_length (closes : List ℚ) : (gains closes).length = closes.length := by
  simp [gains, diffs_length]

theorem losses_length (closes : List ℚ) : (losses closes).length = closes.length := by
  simp [losses, diffs_length]

theorem gains_nonneg (closes : List ℚ) : ∀ x ∈ gains closes, 0 ≤ x := by
  intro x hx
  simp only [gains, List.mem_map] at hx
  obtain ⟨d, -, rfl⟩ := hx
  cases d with
  | none => simp
  | some v =>
    by_cases hv : 0 < v <;> simp [hv]
    exact le_of_lt hv

theorem losses_nonneg (closes : List ℚ) : ∀ x ∈ losses closes, 0 ≤ x := by
  intro x hx
  simp only [losses, List.mem_map] at hx
  obtain ⟨d, -, rfl⟩ := hx
  cases d with
  | none => simp
  | some v =>
    by_cases hv : v < 0 <;> simp [hv]
    linarith

theorem rollingMeanLast_eq_some (period : ℕ) (l : List ℚ) (h : period ≤ l.length) :
    rollingMeanLast period l = some ((l.drop (l.length - period)).sum / (period : ℚ)) := by
  simp [rollingMeanLast, Nat.not_lt.mpr h]

theorem rollingMeanLast_nonneg (period : ℕ) (l : List ℚ) (hl : ∀ x ∈ l, 0 ≤ x)
    (x : ℚ) (hx : rollingMeanLast period l = some x) : 0 ≤ x := by
  unfold rollingMeanLast at hx
  by_cases h : l.length < period
  · simp [h] at hx
  · simp only [h, if_false] at hx
    obtain rfl := Option.some.inj hx
    apply div_nonneg
    · exact List.sum_nonneg fun y hy => hl y (List.drop_subset _ _ hy)
    · exact_mod_cast Nat.zero_le period

theorem avg_gain_eq_some (closes : List ℚ) (period : ℕ) (h : period ≤ closes.length) :
    ∃ g, avg_gain closes period = some g ∧ 0 ≤ g := by
  have hlen : period ≤ (gains closes).length := by rw [gains_length]; exact h
  refine ⟨_, rollingMeanLast_eq_some _ _ hlen, ?_⟩
  exact rollingMeanLast_nonneg _ _ (gains_nonneg closes) _ (rollingMeanLast_eq_some _ _ hlen)

theorem avg_loss_eq_some (closes : List ℚ) (period : ℕ) (h : period ≤ closes.length) :
    ∃ l, avg_loss closes period = some l ∧ 0 ≤ l := by
  have hlen : period ≤ (losses closes).length := by rw [losses_length]; exact h
  refine ⟨_, rollingMeanLast_eq_some _ _ hlen, ?_⟩
  exact rollingMeanLast_nonneg _ _ (losses_nonneg closes) _ (rollingMeanLast_eq_some _ _ hlen)

/-- Claim C1 (amended): for a close series long enough to fill the rolling
window, `compute_rsi` returns 50 exactly when the window's average loss is 0
(the `NaN` fallback path, which fires for every strictly increasing series
regardless of the average gain) or the average gain equals the average loss.
It is not the case that 50 is returned only for an entirely flat window. -/
theorem compute_rsi_eq_fifty_iff (closes : List ℚ) (period : ℕ)
    (hlen : period ≤ closes.length) :
    compute_rsi closes period = 50 ↔
      avg_loss closes period = some 0 ∨ avg_gain closes period = avg_loss closes period := by
  obtain ⟨g, hg, hgpos⟩ := avg_gain_eq_some closes period hlen
  obtain ⟨l, hl, hlpos⟩ := avg_loss_eq_some closes period hlen
  by_cases hl0 : l = 0
  · subst hl0
    have hval : compute_rsi closes period = 50 := by
      simp [compute_rsi, hg, hl]
    simp [hval, hl]
  · have hlpos' : 0 < l := lt_of_le_of_ne hlpos (Ne.symm hl0)
    have hval : compute_rsi closes period = 100 - 100 / (1 + g / l) := by
      simp [compute_rsi, hg, hl, hl0]
    rw [hval, hg, hl]
    have hdiv : (0 : ℚ) ≤ g / l := div_nonneg hgpos hlpos'.le
    have h1 : (0 : ℚ) < 1 + g / l := by linarith
    constructor
    · intro h
      have h2 : 100 / (1 + g / l) = 50 := by linarith
      field_simp at h2
      have h5 : g = l := by linarith
      exact Or.inr (by rw [h5])
    · intro h
      rcases h with h | h
      · exact absurd (Option.some.inj h) hl0
      · have h5 : g = l := Option.some.inj h
        rw [h5, div_self hl0]
        norm_num

/-- A strictly increasing 15-bar close series: the rolling 14-bar window has
average gain 1 and average loss 0. -/
def rsiCexCloses : List ℚ := [1, 2, 3, 4, 5, 6, 7, 8, 9, 10, 11, 12, 13, 14, 15]

/-- Claim C1, counterexample: on a strictly monotonically increasing close
series filling the 14-bar window, `compute_rsi` returns exactly 50 even
though the window is not flat (average gain is 1, not 0) — refuting
"returns 50 only when avg_loss = 0 AND avg_gain = 0" and
"for strictly increasing closes the RSI is not 50". -/
theorem compute_rsi_strict_increase_returns_fifty :
    List.Chain' (fun a b => a < b) rsiCexCloses ∧
    rsiCexCloses.length = 15 ∧
    avg_gain rsiCexCloses 14 = some 1 ∧
    avg_loss rsiCexCloses 14 = some 0 ∧
    compute_rsi rsiCexCloses 14 = 50 := by
  have hg : avg_gain rsiCexCloses 14 = some 1 := by
    norm_num [avg_gain, rollingMeanLast, gains, diffs, rsiCexCloses, List.zipWith]
  have hl : avg_loss rsiCexCloses 14 = some 0 := by
    norm_num [avg_loss, rollingMeanLast, losses, diffs, rsiCexCloses, List.zipWith]
  refine ⟨?_, by norm_num [rsiCexCloses], hg, hl, ?_⟩
  · norm_num [rsiCexCloses, List.chain'_cons]
  · simp [compute_rsi, hg, hl]

/-- Claim C1, witness: the amended characterization applied to the concrete
strictly increasing series. -/
theorem compute_rsi_eq_fifty_iff_witness :
    (14 ≤ rsiCexCloses.length) ∧
    (compute_rsi rsiCexCloses 14 = 50 ↔
      avg_loss rsiCexCloses 14 = some 0 ∨
      avg_gain rsiCexCloses 14 = avg_loss rsiCexCloses 14) :=
  ⟨by norm_num [rsiCexCloses], compute_rsi_eq_fifty_iff rsiCexCloses 14 (by norm_num [rsiCexCloses])⟩

/-- Tail of `series.ewm(span=span, adjust=False).mean()`: the recursive EMA
`v := alpha * x + (1 - alpha) * prev` with `alpha = 2 / (span + 1)`. -/
def emaFrom (alpha : ℚ) (prev : ℚ) : List ℚ → List ℚ
  | [] => []
  | x :: xs =>
    let v := alpha * x + (1 - alpha) * prev
    v :: emaFrom alpha v xs

/-- `series.ewm(span=span, adjust=False).mean()`: seeded by the first value. -/
def ewmMean (span : ℕ) (l : List ℚ) : List ℚ :=
  match l with
  | [] => []
  | x :: xs => x :: emaFrom (2 / ((span : ℚ) + 1)) x xs

/-- `compute_macd` from `market_scanner.py`: MACD line = EMA(fast) − EMA(slow),
signal = EMA(MACD line, signal span), histogram = line − signal; the final
values are returned, with the source's `pd.isna` guard mapping an absent last
entry (empty series) to `0.0`. -/
def compute_macd (closes : List ℚ) (fast slow signal : ℕ) : ℚ × ℚ × ℚ :=
  let ema_fast := ewmMean fast closes
  let ema_slow := ewmMean slow closes
  let macd_line := List.zipWith (fun a b => a - b) ema_fast ema_slow
  let macd_signal := ewmMean signal macd_line
  let macd_hist := List.zipWith (fun a b => a - b) macd_line macd_signal
  (macd_line.getLast?.getD 0, macd_signal.getLast?.getD 0, macd_hist.getLast?.getD 0)

/-- True range of each bar after the first (its predecessor is `prev`):
`max(high − low, |high − prevClose|, |low − prevClose|)`. -/
def trTail (prev : Bar) : List Bar → List ℚ
  | [] => []
  | b :: rest =>
    max (b.high - b.low) (max |b.high - prev.close| |b.low - prev.close|) :: trTail b rest

/-- The true-range series: at the first bar `close.shift(1)` is `NaN`, so the
row-wise `max` (which skips `NaN`) is just `high − low`. -/
def trList : List Bar → List ℚ
  | [] => []
  | b :: rest => (b.high - b.low) :: trTail b rest

/-- `compute_atr` from `market_scanner.py`: rolling mean of the true range,
final entry, with the `pd.isna` guard mapping an undefined value to `0.0`. -/
def compute_atr (bars : List Bar) (period : ℕ) : ℚ :=
  (rollingMeanLast period (trList bars)).getD 0

/-- `get_trend` from `market_scanner.py`. -/
def get_trend (sma_20 sma_50 rsi : ℚ) : String :=
  if sma_20 > sma_50 ∧ rsi < 70 then "bullish"
  else if sma_20 < sma_50 ∧ rsi > 30 then "bearish"
  else "neutral"

/-- The `StockIndicators` dataclass (the spec's `IndicatorSnapshot`). -/
structure StockIndicators where
  symbol : String
  price : ℚ
  sma_20 : ℚ
  sma_50 : ℚ
  rsi_14 : ℚ
  macd_line : ℚ
  macd_signal : ℚ
  macd_histogram : ℚ
  volume : ℤ
  volume_sma_20 : ℚ
  atr_14 : ℚ
  trend : String
  error : Option String
deriving Repr, DecidableEq

/-- The all-fallback snapshot built on both error paths of `scan_symbol`
(every numeric field at its default, `rsi_14 = 50`, `trend = "neutral"`). -/
def fallbackSnapshot (symbol : String) (err : String) : StockIndicators :=
  { symbol := symbol
    price := 0
    sma_20 := 0
    sma_50 := 0
    rsi_14 := 50
    macd_line := 0
    macd_signal := 0
    macd_histogram := 0
    volume := 0
    volume_sma_20 := 0
    atr_14 := 0
    trend := "neutral"
    error := some err }

/-- `scan_symbol` from `market_scanner.py`, with the fetched bar list taken as
input (the broker fetch is an external collaborator).  An empty fetch result
(`if not bars`) yields the `"Failed to fetch data"` snapshot; fewer than 50
rows yields the `"Insufficient data"` snapshot; otherwise the indicators are
computed from the dataframe (`bars_to_dataframe` maps bars one-to-one to
rows, and the `volume` column is always present). -/
def scan_symbol (symbol : String) (bars : List Bar) : StockIndicators :=
  match bars with
  | [] => fallbackSnapshot symbol "Failed to fetch data"
  | b :: rest =>
    let bs := b :: rest
    if bs.length < 50 then fallbackSnapshot symbol "Insufficient data"
    else
      let closes := bs.map Bar.close
      let latest := bs.getLast (List.cons_ne_nil b rest)
      let price := latest.close
      let volume := latest.volume
      let sma_20 := if 20 ≤ bs.length then (rollingMeanLast 20 closes).getD price else price
      let sma_50 := if 50 ≤ bs.length then (rollingMeanLast 50 closes).getD price else price
      let rsi := compute_rsi closes 14
      let macd := compute_macd closes 12 26 9
      let atr := compute_atr bs 14
      let vol_sma_20 :=
        if 20 ≤ bs.length then
          (rollingMeanLast 20 (bs.map fun x => (x.volume : ℚ))).getD (volume : ℚ)
        else (volume : ℚ)
      { symbol := symbol
        price := price
        sma_20 := sma_20
        sma_50 := sma_50
        rsi_14 := rsi
        macd_line := macd.1
        macd_signal := macd.2.1
        macd_histogram := macd.2.2
        volume := volume
        volume_sma_20 := vol_sma_20
        atr_14 := atr
        trend := get_trend sma_20 sma_50 rsi
        error := none }

/-- Ten identical bars (close 10): short of every indicator window. -/
def shortBars : List Bar := List.replicate 10 ⟨10, 10, 10, 10, 100⟩

/-- Fifty identical bars (close 10): exactly the minimum viable input. -/
def fiftyBars : List Bar := List.replicate 50 ⟨10, 10, 10, 10, 100⟩

/-- Claim C2 (amended): whenever `scan_symbol` computes indicators at all
(at least 50 bars), SMA(20) and SMA(50) equal the arithmetic mean of the last
20 and 50 closes; but for a series with fewer than `period` bars the snapshot
does not report the mean of all available closes — the whole series falls on
the insufficient-data path and both SMA fields are the fallback 0. -/
theorem scan_symbol_sma_spec (symbol : String) (bars : List Bar) :
    (50 ≤ bars.length →
      (scan_symbol symbol bars).sma_20 =
        ((bars.map Bar.close).drop (bars.length - 20)).sum / 20 ∧
      (scan_symbol symbol bars).sma_50 =
        ((bars.map Bar.close).drop (bars.length - 50)).sum / 50) ∧
    (bars ≠ [] → bars.length < 50 →
      (scan_symbol symbol bars).sma_20 = 0 ∧
      (scan_symbol symbol bars).sma_50 = 0 ∧
      (scan_symbol symbol bars).error = some "Insufficient data") := by
  cases bars with
  | nil =>
    constructor
    · intro h
      simp at h
    · intro hne
      exact absurd rfl hne
  | cons b rest =>
    constructor
    · intro h50
      have hlen : 49 ≤ rest.length := by
        simp only [List.length_cons] at h50; omega
      have e1 : ¬(rest.length + 1 < 50) := by omega
      have hr20 := rollingMeanLast_eq_some 20 (b.close :: List.map Bar.close rest)
        (by simp only [List.length_cons, List.length_map]; omega)
      have hr50 := rollingMeanLast_eq_some 50 (b.close :: List.map Bar.close rest)
        (by simp only [List.length_cons, List.length_map]; omega)
      constructor
      · simp [scan_symbol, e1, hr20, (by omega : (19 : ℕ) ≤ rest.length)]
      · simp [scan_symbol, e1, hr50, (by omega : (49 : ℕ) ≤ rest.length)]
    · intro _ hlt
      have e : rest.length + 1 < 50 := by
        simp only [List.length_cons] at hlt; omega
      simp [scan_symbol, e, fallbackSnapshot]

/-- Claim C2, counterexample: on a 10-bar series of constant close 10 the
arithmetic mean of all available closes is 10, but the snapshot's SMA(20)
field is the fallback 0, not that mean. -/
theorem scan_symbol_short_sma_not_mean_of_all :
    (scan_symbol "AAPL" shortBars).sma_20 = 0 ∧
    (shortBars.map Bar.close).sum / (shortBars.length : ℚ) = 10 ∧
    (0 : ℚ) ≠ 10 ∧
    shortBars.length < 20 := by
  refine ⟨?_, ?_, by norm_num, by norm_num [shortBars]⟩
  · simp [scan_symbol, shortBars, fallbackSnapshot, List.replicate]
  · norm_num [shortBars, List.replicate]

/-- Claim C2, witness: the amended statement applied to the 50-bar and the
10-bar concrete series. -/
theorem scan_symbol_sma_spec_witness :
    ((scan_symbol "AAPL" fiftyBars).sma_20 =
      ((fiftyBars.map Bar.close).drop (fiftyBars.length - 20)).sum / 20) ∧
    (scan_symbol "MSFT" shortBars).sma_50 = 0 :=
  ⟨((scan_symbol_sma_spec "AAPL" fiftyBars).1 (by norm_num [fiftyBars])).1,
   (((scan_symbol_sma_spec "MSFT" shortBars).2 (by simp [shortBars])
      (by norm_num [shortBars])).2).1⟩

/-- Claim C5 (amended): for a nonempty fetched bar list with fewer than 50
bars, `scan_symbol` returns the snapshot with `error = "Insufficient data"`
and every numeric field at its fallback default (price 0, SMAs 0, RSI 50,
MACD fields 0, ATR 0, volume fields 0, trend "neutral"); an empty fetched
list yields the same fallback fields but with `error = "Failed to fetch
data"`, not "Insufficient data". -/
theorem scan_symbol_under_fifty_bars (symbol : String) (bars : List Bar)
    (hne : bars ≠ []) (hlt : bars.length < 50) :
    scan_symbol symbol bars = fallbackSnapshot symbol "Insufficient data" ∧
    (scan_symbol symbol bars).error = some "Insufficient data" ∧
    (scan_symbol symbol bars).price = 0 ∧
    (scan_symbol symbol bars).sma_20 = 0 ∧
    (scan_symbol symbol bars).sma_50 = 0 ∧
    (scan_symbol symbol bars).rsi_14 = 50 ∧
    (scan_symbol symbol bars).macd_line = 0 ∧
    (scan_symbol symbol bars).macd_signal = 0 ∧
    (scan_symbol symbol bars).macd_histogram = 0 ∧
    (scan_symbol symbol bars).atr_14 = 0 ∧
    (scan_symbol symbol bars).volume = 0 ∧
    (scan_symbol symbol bars).volume_sma_20 = 0 ∧
    (scan_symbol symbol bars).trend = "neutral" ∧
    scan_symbol symbol [] = fallbackSnapshot symbol "Failed to fetch data" := by
  have hmain : scan_symbol symbol bars = fallbackSnapshot symbol "Insufficient data" := by
    cases bars with
    | nil => exact absurd rfl hne
    | cons b rest =>
      have e : rest.length + 1 < 50 := by
        simp only [List.length_cons] at hlt; omega
      simp [scan_symbol, e, fallbackSnapshot]
  refine ⟨hmain, ?_⟩
  rw [hmain]
  simp [fallbackSnapshot, scan_symbol]

/-- Claim C5, counterexample: an empty fetched bar list has fewer than 50
bars in total, yet the snapshot's error is `"Failed to fetch data"`, not
`"Insufficient data"`. -/
theorem scan_symbol_empty_fetch_error :
    (scan_symbol "AAPL" []).error = some "Failed to fetch data" ∧
    (scan_symbol "AAPL" []).error ≠ some "Insufficient data" ∧
    ([] : List Bar).length < 50 := by
  refine ⟨rfl, ?_, by norm_num⟩
  simp [scan_symbol, fallbackSnapshot]

/-- Claim C5, witness: the amended statement applied to the 10-bar series. -/
theorem scan_symbol_under_fifty_bars_witness :
    scan_symbol "QQQ" shortBars = fallbackSnapshot "QQQ" "Insufficient data" :=
  (scan_symbol_under_fifty_bars "QQQ" shortBars (by simp [shortBars])
    (by norm_num [shortBars])).1

end MarketScanner

namespace SmaStrategy

open MarketScanner

/-- The `Signal` enum from `sma_strategy.py`. -/
inductive Signal where
  | BUY
  | SELL
  | HOLD
deriving Repr, DecidableEq

/-- One row of the SMA-annotated dataframe produced by `compute_sma`: the
`sma_fast`/`sma_slow` columns, `none` standing for a `NaN` cell (insufficient
rolling history). -/
structure SmaRow where
  sma_fast : Option ℚ
  sma_slow : Option ℚ
deriving Repr, DecidableEq

/-- `detect_crossover` from `sma_strategy.py`.  Fewer than 3 rows → `HOLD`.
Otherwise `prev = df.iloc[-3]`, `curr = df.iloc[-2]` (the row `latest =
df.iloc[-1]` is read but takes no part in the decision); any `NaN` among the
four `prev`/`curr` SMA cells → `HOLD`; golden cross (`prev_fast ≤ prev_slow`
and `curr_fast > curr_slow`) → `BUY`; death cross (`prev_fast ≥ prev_slow`
and `curr_fast < curr_slow`) → `SELL`; otherwise `HOLD`.  The last three rows
are read off the reversed list: `df.reverse = latest :: curr :: prev :: _`. -/
def detect_crossover (df : List SmaRow) : Signal :=
  match df.reverse with
  | _latest :: curr :: prev :: _ =>
    match prev.sma_fast, prev.sma_slow, curr.sma_fast, curr.sma_slow with
    | some prev_fast, some prev_slow, some curr_fast, some curr_slow =>
      if prev_fast ≤ prev_slow ∧ curr_slow < curr_fast then Signal.BUY
      else if prev_slow ≤ prev_fast ∧ curr_fast < curr_slow then Signal.SELL
      else Signal.HOLD
    | _, _, _, _ => Signal.HOLD
  | _ => Signal.HOLD

theorem exists_append_three (df : List SmaRow) (h : 3 ≤ df.length) :
    ∃ xs p c l, df = xs ++ [p, c, l] := by
  rcases hr : df.reverse with _ | ⟨a, _ | ⟨b, _ | ⟨c, t⟩⟩⟩
  · rw [List.reverse_eq_nil_iff] at hr
    subst hr; simp at h
  · have := congrArg List.length hr
    simp at this; omega
  · have := congrArg List.length hr
    simp at this; omega
  · refine ⟨t.reverse, c, b, a, ?_⟩
    have hdf : df = (a :: b :: c :: t).reverse := by
      rw [← hr, List.reverse_reverse]
    rw [hdf]
    simp

theorem detect_crossover_append (xs : List SmaRow) (p c l : SmaRow) :
    detect_crossover (xs ++ [p, c, l]) =
      match p.sma_fast, p.sma_slow, c.sma_fast, c.sma_slow with
      | some prev_fast, some prev_slow, some curr_fast, some curr_slow =>
        if prev_fast ≤ prev_slow ∧ curr_slow < curr_fast then Signal.BUY
        else if prev_slow ≤ prev_fast ∧ curr_fast < curr_slow then Signal.SELL
        else Signal.HOLD
      | _, _, _, _ => Signal.HOLD := by
  have hrev : (xs ++ [p, c, l]).reverse = l :: c :: p :: xs.reverse := by simp
  rw [detect_crossover, hrev]

theorem getElem?_append_three_left (xs : List SmaRow) (p c l : SmaRow) :
    (xs ++ [p, c, l])[xs.length]? = some p ∧
    (xs ++ [p, c, l])[xs.length + 1]? = some c := by
  constructor
  · rw [List.getElem?_append_right (le_refl xs.length)]
    simp
  · rw [List.getElem?_append_right (by omega : xs.length ≤ xs.length + 1)]
    simp

/-- Claim C3: with at least 3 rows and defined PREV/CURR SMA pairs at
positions `[-3]` and `[-2]`, `detect_crossover` returns `BUY` exactly for a
golden cross (`PREV.fast ≤ PREV.slow` and `CURR.fast > CURR.slow`), `SELL`
exactly for a death cross (`PREV.fast ≥ PREV.slow` and
`CURR.fast < CURR.slow`), and `HOLD` otherwise; the decision never depends
on the very latest row (one-bar confirmation lag). -/
theorem detect_crossover_spec (df : List SmaRow) (pf ps cf cs : ℚ)
    (h3 : 3 ≤ df.length)
    (hp : df[df.length - 3]? = some ⟨some pf, some ps⟩)
    (hc : df[df.length - 2]? = some ⟨some cf, some cs⟩) :
    (detect_crossover df = Signal.BUY ↔ pf ≤ ps ∧ cs < cf) ∧
    (detect_crossover df = Signal.SELL ↔ ps ≤ pf ∧ cf < cs) ∧
    (detect_crossover df = Signal.HOLD ↔
      ¬(pf ≤ ps ∧ cs < cf) ∧ ¬(ps ≤ pf ∧ cf < cs)) ∧
    (∀ r : SmaRow, detect_crossover (df.dropLast ++ [r]) = detect_crossover df) := by
  obtain ⟨xs, p, c, l, rfl⟩ := exists_append_three df h3
  have e3 : (xs ++ [p, c, l]).length - 3 = xs.length := by simp
  have e2 : (xs ++ [p, c, l]).length - 2 = xs.length + 1 := by simp
  rw [e3, (getElem?_append_three_left xs p c l).1] at hp
  rw [e2, (getElem?_append_three_left xs p c l).2] at hc
  obtain rfl : p = ⟨some pf, some ps⟩ := Option.some.inj hp
  obtain rfl : c = ⟨some cf, some cs⟩ := Option.some.inj hc
  have hdrop : (xs ++ [⟨some pf, some ps⟩, ⟨some cf, some cs⟩, l]).dropLast
      = xs ++ [⟨some pf, some ps⟩, ⟨some cf, some cs⟩] := by
    rw [show xs ++ [(⟨some pf, some ps⟩ : SmaRow), ⟨some cf, some cs⟩, l]
        = (xs ++ [⟨some pf, some ps⟩, ⟨some cf, some cs⟩]) ++ [l] by simp]
    exact List.dropLast_concat
  refine ⟨?_, ?_, ?_, ?_⟩
  · rw [detect_crossover_append]
    dsimp only
    split_ifs with h1 h2
    · exact iff_of_true rfl h1
    · exact iff_of_false (by simp) h1
    · exact iff_of_false (by simp) h1
  · rw [detect_crossover_append]
    dsimp only
    split_ifs with h1 h2
    · exact iff_of_false (by simp) fun h => lt_asymm h1.2 h.2
    · exact iff_of_true rfl h2
    · exact iff_of_false (by simp) h2
  · rw [detect_crossover_append]
    dsimp only
    split_ifs with h1 h2
    · exact iff_of_false (by simp) fun h => h.1 h1
    · exact iff_of_false (by simp) fun h => h.2 h2
    · exact iff_of_true rfl ⟨h1, h2⟩
  · intro r
    rw [hdrop, show (xs ++ [(⟨some pf, some ps⟩ : SmaRow), ⟨some cf, some cs⟩]) ++ [r]
        = xs ++ [⟨some pf, some ps⟩, ⟨some cf, some cs⟩, r] by simp]
    rw [detect_crossover_append, detect_crossover_append]

/-- A concrete golden-cross series: PREV = (9, 10), CURR = (11, 10), and an
arbitrary latest row. -/
def goldenCrossDf : List SmaRow := [⟨some 9, some 10⟩, ⟨some 11, some 10⟩, ⟨some 12, some 10⟩]

/-- Claim C3, witness: the crossover characterization applied to the
concrete golden-cross series, which yields `BUY`. -/
theorem detect_crossover_spec_witness : detect_crossover goldenCrossDf = Signal.BUY :=
  (detect_crossover_spec goldenCrossDf 9 10 11 10 (by norm_num [goldenCrossDf])
    rfl rfl).1.mpr (by norm_num)

/-- Claim C4: `detect_crossover` is total — every series with fewer than 3
rows yields `HOLD` unconditionally, and every series in which any of the
PREV/CURR fast/slow SMA cells is `NaN` also yields `HOLD`. -/
theorem detect_crossover_total (df : List SmaRow) :
    (df.length < 3 → detect_crossover df = Signal.HOLD) ∧
    (∀ pr cu, 3 ≤ df.length →
      df[df.length - 3]? = some pr → df[df.length - 2]? = some cu →
      (pr.sma_fast = none ∨ pr.sma_slow = none ∨
        cu.sma_fast = none ∨ cu.sma_slow = none) →
      detect_crossover df = Signal.HOLD) := by
  constructor
  · intro hlt
    unfold detect_crossover
    rcases hr : df.reverse with _ | ⟨a, _ | ⟨b, _ | ⟨c, t⟩⟩⟩
    · rfl
    · rfl
    · rfl
    · have := congrArg List.length hr
      simp at this
      omega
  · intro pr cu h3 hp hc hnan
    obtain ⟨xs, p, c, l, rfl⟩ := exists_append_three df h3
    have e3 : (xs ++ [p, c, l]).length - 3 = xs.length := by simp
    have e2 : (xs ++ [p, c, l]).length - 2 = xs.length + 1 := by simp
    rw [e3, (getElem?_append_three_left xs p c l).1] at hp
    rw [e2, (getElem?_append_three_left xs p c l).2] at hc
    obtain rfl : p = pr := Option.some.inj hp
    obtain rfl : c = cu := Option.some.inj hc
    rw [detect_crossover_append]
    rcases p with ⟨pfa, psa⟩
    rcases c with ⟨cfa, csa⟩
    cases pfa <;> cases psa <;> cases cfa <;> cases csa <;> simp_all

/-- A 3-row series whose PREV row has a `NaN` fast SMA. -/
def nanPrevDf : List SmaRow := [⟨none, some 1⟩, ⟨some 2, some 3⟩, ⟨some 4, some 5⟩]

/-- Claim C4, witness: totality applied to the empty series (fewer than 3
rows) and to a concrete series with a `NaN` PREV cell. -/
theorem detect_crossover_total_witness :
    detect_crossover ([] : List SmaRow) = Signal.HOLD ∧
    detect_crossover nanPrevDf = Signal.HOLD :=
  ⟨(detect_crossover_total []).1 (by norm_num),
   (detect_crossover_total nanPrevDf).2 ⟨none, some 1⟩ ⟨some 2, some 3⟩
     (by norm_num [nanPrevDf]) rfl rfl (Or.inl rfl)⟩

end SmaStrategy

namespace TelegramUsers

/-- `config.REPORT_TIMES`. -/
def REPORT_TIMES : List String := ["08:00", "20:00"]

/-- The ASCII restriction of `_is_valid_hhmm` from `telegram_users.py`:
exactly five characters, a colon at index 2, ASCII digit pairs either side,
hour at most 23 and minute at most 59.  On ASCII-configured recipients —
the only ones the dispatcher theorems below evaluate — it agrees with the
source; Python's full validator additionally consults the Unicode digit
classes and can raise, which `_is_valid_hhmm_py` further down models. -/
def _is_valid_hhmm (t : String) : Bool :=
  match t.data with
  | [h1, h2, c, m1, m2] =>
    c == ':' && (h1.isDigit && h2.isDigit) && (m1.isDigit && m2.isDigit) &&
    decide (10 * (h1.toNat - 48) + (h2.toNat - 48) ≤ 23) &&
    decide (10 * (m1.toNat - 48) + (m2.toNat - 48) ≤ 59)
  | _ => false

/-- The `TelegramUser` dataclass fields the dispatcher reads (symbol lists
and username play no part in scheduling). -/
structure TelegramUser where
  chat_id : ℤ
  subscribed : Bool
  times : Option (List String)
  frequency_minutes : Option ℤ
deriving Repr, DecidableEq

/-- `TelegramUser.effective_times` over the ASCII validator:
`base = self.times or REPORT_TIMES` (Python truthiness: `None` and the
empty list both fall back), entries failing the validator dropped, and
`cleaned or ["08:00", "20:00"]` as the final non-empty fallback.  It agrees
with the source on ASCII-configured recipients; `effective_times_py` below
carries the raising behaviour of the real validator. -/
def effective_times (u : TelegramUser) : List String :=
  let base :=
    match u.times with
    | some ts => if ts.isEmpty then REPORT_TIMES else ts
    | none => REPORT_TIMES
  let cleaned := base.filter _is_valid_hhmm
  if cleaned.isEmpty then ["08:00", "20:00"] else cleaned

end TelegramUsers

namespace Scheduler

open TelegramUsers

/-- The per-user due test inside `_run_user_reports` (`scheduler.py`): a
truthy `frequency_minutes` with `freq > 0 and minute_of_day % freq == 0`
marks the user due, and independently membership of the current `"HH:MM"`
string in the user's effective time list marks the user due. -/
def shouldRun (minute_of_day : ℤ) (current_time : String) (u : TelegramUser) : Bool :=
  let freqTrigger :=
    match u.frequency_minutes with
    | some f => if f ≠ 0 then decide (0 < f) && decide (minute_of_day % f = 0) else false
    | none => false
  freqTrigger || (effective_times u).contains current_time

/-- `_run_user_reports` from `scheduler.py`, one tick: walk the registry in
order; skip unsubscribed users and users not due; for each due user build
and deliver the report — an action abstracted as the collaborator `deliver`
(covering `generate_report`, `save_report` and
`send_telegram_report_to_user`), whose exception is caught by the per-user
`try/except` and logged (recorded here as the second component) instead of
propagating.  The returned list is the tick's dispatch decisions with their
logged outcomes. -/
def run_user_reports (minute_of_day : ℤ) (current_time : String)
    (deliver : ℤ → Except String Unit) : List TelegramUser → List (ℤ × Option String)
  | [] => []
  | u :: rest =>
    if u.subscribed = false then run_user_reports minute_of_day current_time deliver rest
    else if shouldRun minute_of_day current_time u = false then
      run_user_reports minute_of_day current_time deliver rest
    else
      (u.chat_id,
        match deliver u.chat_id with
        | Except.ok _ => none
        | Except.error e => some e) ::
      run_user_reports minute_of_day current_time deliver rest

theorem run_user_reports_fst_sublist (minute_of_day : ℤ) (current_time : String)
    (deliver : ℤ → Except String Unit) (users : List TelegramUser) :
    List.Sublist ((run_user_reports minute_of_day current_time deliver users).map Prod.fst)
      (users.map TelegramUser.chat_id) := by
  induction users with
  | nil => simp [run_user_reports]
  | cons u rest ih =>
    by_cases hs : u.subscribed = false
    · simpa [run_user_reports, hs] using ih.cons u.chat_id
    · by_cases hr : shouldRun minute_of_day current_time u = false
      · simpa [run_user_reports, hs, hr] using ih.cons u.chat_id
      · simpa [run_user_reports, hs, hr] using ih.cons₂ u.chat_id

/-- Claim C6: per tick, each registered recipient (the registry is keyed by
`chat_id`, so the ids are pairwise distinct) receives at most one dispatch
decision, even when the frequency condition and an explicit time match fire
for the same minute. -/
theorem run_user_reports_at_most_once (users : List TelegramUser)
    (minute_of_day : ℤ) (current_time : String) (deliver : ℤ → Except String Unit)
    (hnodup : (users.map TelegramUser.chat_id).Nodup) (cid : ℤ) :
    ((run_user_reports minute_of_day current_time deliver users).map Prod.fst).count cid ≤ 1 :=
  le_trans
    ((run_user_reports_fst_sublist minute_of_day current_time deliver users).count_le cid)
    (List.nodup_iff_count_le_one.mp hnodup cid)

/-- A recipient for whom a frequency interval and an explicit time both fire
at minute 120 = "02:00". -/
def dualTriggerUser : TelegramUser := ⟨1, true, some ["02:00"], some 60⟩

/-- Claim C6, witness: with both triggers firing at the same instant, the
recipient still gets exactly one decision. -/
theorem run_user_reports_at_most_once_witness :
    ((run_user_reports 120 "02:00" (fun _ => Except.ok ()) [dualTriggerUser]).map
      Prod.fst).count 1 ≤ 1 ∧
    (run_user_reports 120 "02:00" (fun _ => Except.ok ()) [dualTriggerUser]).map
      Prod.fst = [1] :=
  ⟨run_user_reports_at_most_once [dualTriggerUser] 120 "02:00" _ (by simp) 1, by rfl⟩

/-- Claim C7: a subscribed recipient with `frequency_minutes = f > 0` and no
explicit time match is dispatched at a tick exactly when
`minute_of_day % f == 0`. -/
theorem run_user_reports_frequency_iff (u : TelegramUser) (f minute_of_day : ℤ)
    (current_time : String) (deliver : ℤ → Except String Unit)
    (hsub : u.subscribed = true) (hf : u.frequency_minutes = some f) (hpos : 0 < f)
    (hct : (effective_times u).contains current_time = false) :
    (run_user_reports minute_of_day current_time deliver [u]).map Prod.fst =
      if minute_of_day % f = 0 then [u.chat_id] else [] := by
  have hne : f ≠ 0 := ne_of_gt hpos
  have hct' : current_time ∉ effective_times u := by simpa using hct
  by_cases hm : minute_of_day % f = 0 <;>
    simp [run_user_reports, shouldRun, hsub, hf, hne, hpos, hct, hct', hm]

/-- A recipient with `frequency_minutes = 60` and no explicit times of their
own (the global defaults 08:00/20:00 apply). -/
def hourlyUser : TelegramUser := ⟨7, true, none, some 60⟩

/-- Claim C7, witness: the hourly recipient fires at minute 120 and not at
minute 121. -/
theorem run_user_reports_frequency_iff_witness :
    (run_user_reports 120 "02:00" (fun _ => Except.ok ()) [hourlyUser]).map Prod.fst = [7] ∧
    (run_user_reports 121 "02:01" (fun _ => Except.ok ()) [hourlyUser]).map Prod.fst = [] := by
  constructor
  · have h := run_user_reports_frequency_iff hourlyUser 60 120 "02:00"
      (fun _ => Except.ok ()) rfl rfl (by norm_num) (by rfl)
    rw [h]
    norm_num [hourlyUser]
  · have h := run_user_reports_frequency_iff hourlyUser 60 121 "02:01"
      (fun _ => Except.ok ()) rfl rfl (by norm_num) (by rfl)
    rw [h]
    norm_num

end Scheduler

namespace TelegramUsers

/-- Python `int` consults the Unicode character database, which is external
data: a character contributes a decimal digit value exactly when its Unicode
`Numeric_Type` is `Decimal` (category `Nd`).  This table is the fragment of
that database covering every character evaluated below: the ASCII digits and
the fullwidth (U+FF10..U+FF19) and Arabic-Indic (U+0660..U+0669)
decimal-digit blocks; characters outside the fragment carry no decimal
value. -/
def pyDecimalVal (c : Char) : Option ℕ :=
  if 48 ≤ c.toNat ∧ c.toNat ≤ 57 then some (c.toNat - 48)
  else if 0xFF10 ≤ c.toNat ∧ c.toNat ≤ 0xFF19 then some (c.toNat - 0xFF10)
  else if 0x660 ≤ c.toNat ∧ c.toNat ≤ 0x669 then some (c.toNat - 0x660)
  else none

/-- Python `str.isdigit` on one character: true when the Unicode
`Numeric_Type` is `Decimal` or `Digit`.  Beyond the decimal table above, the
covered `Digit`-but-not-`Decimal` characters are the superscript digits
¹ (U+00B9), ² (U+00B2) and ³ (U+00B3). -/
def pyIsDigit (c : Char) : Bool :=
  (pyDecimalVal c).isSome || c == '¹' || c == '²' || c == '³'

/-- Python `int` on a two-character string whose characters already passed
`isdigit`: the base-10 value when both characters are decimal digits, and a
raised `ValueError` otherwise (`isdigit` accepts `Digit`-class characters
that `int` rejects). -/
def pyIntPair (a b : Char) : Except String ℕ :=
  match pyDecimalVal a, pyDecimalVal b with
  | some x, some y => Except.ok (10 * x + y)
  | _, _ => Except.error "ValueError"

/-- `_is_valid_hhmm` from `telegram_users.py` with Python's real digit
semantics: a wrong length, a missing colon or a non-`isdigit` character
returns `False`; then `h = int(hh)` and `m = int(mm)` run — raising
`ValueError` for `isdigit`-true characters without a decimal value — before
the range check `0 <= h <= 23 and 0 <= m <= 59`. -/
def _is_valid_hhmm_py (t : String) : Except String Bool :=
  match t.data with
  | [h1, h2, c, m1, m2] =>
    if c != ':' then Except.ok false
    else if !(pyIsDigit h1 && pyIsDigit h2) || !(pyIsDigit m1 && pyIsDigit m2) then
      Except.ok false
    else
      match pyIntPair h1 h2, pyIntPair m1 m2 with
      | Except.ok h, Except.ok m => Except.ok (decide (h ≤ 23) && decide (m ≤ 59))
      | Except.error e, _ => Except.error e
      | _, Except.error e => Except.error e
  | _ => Except.ok false

/-- The list comprehension inside `effective_times`: entries are tested left
to right, and a raise inside the predicate escapes immediately. -/
def filterExcept (p : String → Except String Bool) :
    List String → Except String (List String)
  | [] => Except.ok []
  | x :: xs =>
    match p x with
    | Except.error e => Except.error e
    | Except.ok b =>
      match filterExcept p xs with
      | Except.error e => Except.error e
      | Except.ok rest => Except.ok (if b then x :: rest else rest)

/-- `TelegramUser.effective_times` with the real validator: the same
`self.times or REPORT_TIMES` base and `cleaned or ["08:00", "20:00"]`
fallback, but the filtering comprehension can raise `ValueError`, which
escapes the method. -/
def effective_times_py (u : TelegramUser) : Except String (List String) :=
  let base :=
    match u.times with
    | some ts => if ts.isEmpty then REPORT_TIMES else ts
    | none => REPORT_TIMES
  match filterExcept _is_valid_hhmm_py base with
  | Except.error e => Except.error e
  | Except.ok cleaned =>
    Except.ok (if cleaned.isEmpty then ["08:00", "20:00"] else cleaned)

/-- A recipient whose configured time "²3:00" passes `str.isdigit`
(superscript two has `Numeric_Type` `Digit`) but makes `int` raise. -/
def superscriptUser : TelegramUser := ⟨11, true, some ["²3:00"], none⟩

/-- A well-configured recipient, due every minute. -/
def wellFormedUser : TelegramUser := ⟨12, true, none, some 1⟩

/-- A recipient whose fullwidth time "２３:５９" passes the real validator
and survives into the effective list. -/
def fullwidthUser : TelegramUser := ⟨13, true, some ["２３:５９"], none⟩

end TelegramUsers

namespace Scheduler

open TelegramUsers

/-- `_run_user_reports` from `scheduler.py` with the real validator:
`user.effective_times()` is evaluated for every subscribed user outside the
per-user `try/except` (the `try` only wraps report building and delivery),
so a `ValueError` raised by the validator escapes the whole tick and later
recipients are never examined. -/
def run_user_reports_py (minute_of_day : ℤ) (current_time : String)
    (deliver : ℤ → Except String Unit) :
    List TelegramUser → Except String (List (ℤ × Option String))
  | [] => Except.ok []
  | u :: rest =>
    if u.subscribed = false then
      run_user_reports_py minute_of_day current_time deliver rest
    else
      let freqTrigger :=
        match u.frequency_minutes with
        | some f => if f ≠ 0 then decide (0 < f) && decide (minute_of_day % f = 0) else false
        | none => false
      match effective_times_py u with
      | Except.error e => Except.error e
      | Except.ok ets =>
        if (freqTrigger || ets.contains current_time) = false then
          run_user_reports_py minute_of_day current_time deliver rest
        else
          match run_user_reports_py minute_of_day current_time deliver rest with
          | Except.error e => Except.error e
          | Except.ok tail =>
            Except.ok ((u.chat_id,
              match deliver u.chat_id with
              | Except.ok _ => none
              | Except.error e => some e) :: tail)

/-- Claim C8 (code bug): with Python's real digit semantics the validator
does not silently filter malformed entries.  The entry "²3:00" passes
`str.isdigit` and then `int("²3")` raises `ValueError`; the raise escapes
`effective_times`, which the dispatcher calls outside its per-user
`try/except`, so the whole tick aborts — the well-formed second recipient,
who is dispatched when alone, is never processed.  And the fullwidth entry
"２３:５９" — not an ASCII "HH:MM" string — passes validation and survives
into the effective list.  Both contradict the claim and spec §7(e): the
malformed configuration is neither silently filtered nor kept away from the
dispatcher. -/
theorem hhmm_validation_code_bug :
    _is_valid_hhmm_py "²3:00" = Except.error "ValueError" ∧
    effective_times_py superscriptUser = Except.error "ValueError" ∧
    run_user_reports_py 480 "08:00" (fun _ => Except.ok ())
      [superscriptUser, wellFormedUser] = Except.error "ValueError" ∧
    run_user_reports_py 480 "08:00" (fun _ => Except.ok ())
      [wellFormedUser] = Except.ok [(12, none)] ∧
    _is_valid_hhmm_py "２３:５９" = Except.ok true ∧
    effective_times_py fullwidthUser = Except.ok ["２３:５９"] ∧
    ("２３:５９".data.all fun c => decide (c.toNat ≤ 127)) = false :=
  ⟨rfl, rfl, rfl, rfl, rfl, rfl, rfl⟩

end Scheduler


namespace Scheduler

open TelegramUsers

theorem run_user_reports_cons_skip (minute_of_day : ℤ) (current_time : String)
    (deliver : ℤ → Except String Unit) (u : TelegramUser) (rest : List TelegramUser)
    (h : u.subscribed = false ∨ shouldRun minute_of_day current_time u = false) :
    run_user_reports minute_of_day current_time deliver (u :: rest) =
      run_user_reports minute_of_day current_time deliver rest := by
  rcases h with h | h
  · simp [run_user_reports, h]
  · by_cases hs : u.subscribed = false <;> simp [run_user_reports, hs, h]

theorem run_user_reports_cons_due (minute_of_day : ℤ) (current_time : String)
    (deliver : ℤ → Except String Unit) (u : TelegramUser) (rest : List TelegramUser)
    (hs : u.subscribed = true) (hr : shouldRun minute_of_day current_time u = true) :
    run_user_reports minute_of_day current_time deliver (u :: rest) =
      (u.chat_id,
        match deliver u.chat_id with
        | Except.ok _ => none
        | Except.error e => some e) ::
      run_user_reports minute_of_day current_time deliver rest := by
  simp [run_user_reports, hs, hr]

/-- Claim C9: per-recipient failures are isolated within a tick.  Which
recipients are dispatched does not depend on any delivery outcome, every due
recipient is dispatched even when another recipient's delivery raises, and a
raised error is logged with its recipient instead of propagating. -/
theorem run_user_reports_failure_isolated (users : List TelegramUser)
    (minute_of_day : ℤ) (current_time : String)
    (d1 d2 : ℤ → Except String Unit) :
    ((run_user_reports minute_of_day current_time d1 users).map Prod.fst =
      (run_user_reports minute_of_day current_time d2 users).map Prod.fst) ∧
    (∀ u ∈ users, u.subscribed = true → shouldRun minute_of_day current_time u = true →
      u.chat_id ∈ (run_user_reports minute_of_day current_time d1 users).map Prod.fst) ∧
    (∀ u ∈ users, u.subscribed = true → shouldRun minute_of_day current_time u = true →
      ∀ e, d1 u.chat_id = Except.error e →
        (u.chat_id, some e) ∈ run_user_reports minute_of_day current_time d1 users) := by
  induction users with
  | nil =>
    refine ⟨rfl, ?_, ?_⟩ <;> intro u hu <;> simp at hu
  | cons u rest ih =>
    obtain ⟨ih1, ih2, ih3⟩ := ih
    by_cases hdue : u.subscribed = true ∧ shouldRun minute_of_day current_time u = true
    · obtain ⟨hs, hr⟩ := hdue
      have e1 := run_user_reports_cons_due minute_of_day current_time d1 u rest hs hr
      have e2 := run_user_reports_cons_due minute_of_day current_time d2 u rest hs hr
      refine ⟨by rw [e1, e2]; simp [ih1], ?_, ?_⟩
      · intro v hv hvs hvr
        rcases List.mem_cons.mp hv with rfl | hv'
        · rw [e1]; simp
        · rw [e1]
          simp only [List.map_cons, List.mem_cons]
          exact Or.inr (ih2 v hv' hvs hvr)
      · intro v hv hvs hvr e he
        rcases List.mem_cons.mp hv with rfl | hv'
        · rw [e1, he]
          simp
        · rw [e1]
          exact List.mem_cons_of_mem _ (ih3 v hv' hvs hvr e he)
    · have hskip : u.subscribed = false ∨ shouldRun minute_of_day current_time u = false := by
        rcases Bool.eq_false_or_eq_true u.subscribed with h | h
        · rcases Bool.eq_false_or_eq_true (shouldRun minute_of_day current_time u) with h2 | h2
          · exact absurd ⟨h, h2⟩ hdue
          · exact Or.inr h2
        · exact Or.inl h
      have e1 := run_user_reports_cons_skip minute_of_day current_time d1 u rest hskip
      have e2 := run_user_reports_cons_skip minute_of_day current_time d2 u rest hskip
      refine ⟨by rw [e1, e2]; exact ih1, ?_, ?_⟩
      · intro v hv hvs hvr
        rcases List.mem_cons.mp hv with rfl | hv'
        · exact absurd ⟨hvs, hvr⟩ hdue
        · rw [e1]
          exact ih2 v hv' hvs hvr
      · intro v hv hvs hvr e he
        rcases List.mem_cons.mp hv with rfl | hv'
        · exact absurd ⟨hvs, hvr⟩ hdue
        · rw [e1]
          exact ih3 v hv' hvs hvr e he

/-- Two always-due recipients (frequency 1 divides every minute). -/
def everyMinuteUserA : TelegramUser := ⟨1, true, none, some 1⟩

/-- Second always-due recipient. -/
def everyMinuteUserB : TelegramUser := ⟨2, true, none, some 1⟩

/-- A delivery collaborator that raises for recipient 1 only. -/
def failFirstDeliver : ℤ → Except String Unit :=
  fun cid => if cid = 1 then Except.error "boom" else Except.ok ()

/-- Claim C9, witness: recipient 1's delivery failure is logged, and
recipient 2 in the same tick is still dispatched. -/
theorem run_user_reports_failure_isolated_witness :
    (1, some "boom") ∈
      run_user_reports 480 "08:00" failFirstDeliver [everyMinuteUserA, everyMinuteUserB] ∧
    (2 : ℤ) ∈
      (run_user_reports 480 "08:00" failFirstDeliver
        [everyMinuteUserA, everyMinuteUserB]).map Prod.fst :=
  ⟨(run_user_reports_failure_isolated [everyMinuteUserA, everyMinuteUserB] 480 "08:00"
      failFirstDeliver failFirstDeliver).2.2 everyMinuteUserA (by simp) rfl rfl "boom" rfl,
   (run_user_reports_failure_isolated [everyMinuteUserA, everyMinuteUserB] 480 "08:00"
      failFirstDeliver failFirstDeliver).2.1 everyMinuteUserB (by simp) rfl rfl⟩

end Scheduler

namespace MarketScanner

/-- `config.SCAN_SYMBOLS`. -/
def SCAN_SYMBOLS : List String :=
  ["SPY", "QQQ", "AAPL", "MSFT", "GOOGL", "AMZN", "META", "NVDA", "TSLA", "MU"]

/-- `config.MARKET_INDICATORS`. -/
def MARKET_INDICATORS : List String := ["SPY", "QQQ"]

/-- `list(dict.fromkeys(...))`: deduplication that keeps the first occurrence
of each element and preserves their order (`seen` accumulates the keys
already inserted). -/
def dedupFirst (seen : List String) : List String → List String
  | [] => []
  | x :: xs =>
    if seen.contains x then dedupFirst seen xs
    else x :: dedupFirst (x :: seen) xs

/-- `run_scanner`'s scanned universe (`market_scanner.py` lines 179-180):
`all_symbols = list(dict.fromkeys(base_symbols + config.MARKET_INDICATORS))`,
where `base_symbols` is the caller's symbols list or `config.SCAN_SYMBOLS`. -/
def all_symbols (base_symbols : List String) : List String :=
  dedupFirst [] (base_symbols ++ MARKET_INDICATORS)

theorem mem_dedupFirst (l : List String) :
    ∀ seen x, x ∈ dedupFirst seen l ↔ x ∈ l ∧ x ∉ seen := by
  induction l with
  | nil => intro seen x; simp [dedupFirst]
  | cons a as ih =>
    intro seen x
    by_cases ha : a ∈ seen
    · have hc : seen.contains a = true := by
        simpa using ha
      rw [dedupFirst, if_pos hc, ih]
      constructor
      · rintro ⟨hx, hns⟩
        exact ⟨List.mem_cons_of_mem a hx, hns⟩
      · rintro ⟨hx, hns⟩
        rcases List.mem_cons.mp hx with rfl | hx'
        · exact absurd ha hns
        · exact ⟨hx', hns⟩
    · have hc : ¬(seen.contains a = true) := by
        simpa using ha
      rw [dedupFirst, if_neg hc]
      constructor
      · intro hx
        rcases List.mem_cons.mp hx with rfl | hx'
        · exact ⟨List.mem_cons_self x as, ha⟩
        · obtain ⟨h1, h2⟩ := (ih (a :: seen) x).mp hx'
          refine ⟨List.mem_cons_of_mem a h1, fun hs => h2 (List.mem_cons_of_mem a hs)⟩
      · rintro ⟨hx, hns⟩
        rcases List.mem_cons.mp hx with rfl | hx'
        · exact List.mem_cons_self x _
        · by_cases hxa : x = a
          · subst hxa
            exact List.mem_cons_self x _
          · refine List.mem_cons_of_mem a ((ih (a :: seen) x).mpr ⟨hx', ?_⟩)
            intro hmem
            rcases List.mem_cons.mp hmem with h | h
            · exact hxa h
            · exact hns h

theorem dedupFirst_sublist (l : List String) :
    ∀ seen, List.Sublist (dedupFirst seen l) l := by
  induction l with
  | nil => intro seen; simp [dedupFirst]
  | cons a as ih =>
    intro seen
    by_cases hc : seen.contains a = true
    · rw [dedupFirst, if_pos hc]
      exact (ih seen).cons a
    · rw [dedupFirst, if_neg hc]
      exact (ih (a :: seen)).cons₂ a

theorem dedupFirst_nodup (l : List String) :
    ∀ seen, (dedupFirst seen l).Nodup := by
  induction l with
  | nil => intro seen; simp [dedupFirst]
  | cons a as ih =>
    intro seen
    by_cases hc : seen.contains a = true
    · rw [dedupFirst, if_pos hc]
      exact ih seen
    · rw [dedupFirst, if_neg hc]
      refine List.Nodup.cons ?_ (ih (a :: seen))
      intro hmem
      exact ((mem_dedupFirst as (a :: seen) a).mp hmem).2 (List.mem_cons_self a seen)

/-- Claim C10: for every base symbol list passed to `run_scanner`, the
evaluated universe is the first-occurrence-preserving deduplication of the
base symbols followed by the market indicators: it has no duplicates, always
contains the index proxies SPY and QQQ, contains exactly the symbols of the
concatenation, and preserves their first-occurrence order (it is a sublist
of the concatenation). -/
theorem all_symbols_spec (base_symbols : List String) :
    (all_symbols base_symbols).Nodup ∧
    "SPY" ∈ all_symbols base_symbols ∧
    "QQQ" ∈ all_symbols base_symbols ∧
    (∀ s, s ∈ all_symbols base_symbols ↔ s ∈ base_symbols ++ MARKET_INDICATORS) ∧
    List.Sublist (all_symbols base_symbols) (base_symbols ++ MARKET_INDICATORS) := by
  have hmem : ∀ s, s ∈ all_symbols base_symbols ↔ s ∈ base_symbols ++ MARKET_INDICATORS := by
    intro s
    rw [all_symbols, mem_dedupFirst]
    simp
  refine ⟨dedupFirst_nodup _ _, ?_, ?_, hmem, dedupFirst_sublist _ _⟩
  · exact (hmem "SPY").mpr (by simp [MARKET_INDICATORS])
  · exact (hmem "QQQ").mpr (by simp [MARKET_INDICATORS])

end MarketScanner
